import Mathlib

/-!
Verification of the vts-vtsd delivery layer against its specification.

Shallow embedding of:
  * `src/vtsd/src/vtsd/fileclass.hpp` (FileClass, FileClassSettings),
  * `src/vtsd/src/vtsd/sink.cpp` (cache-control `update`, `SubIStreamDataSource`),
  * `src/vtsd/src/vtsd/delivery/slpk/driver.cpp` (`SlpkDriver::handle`,
    `slpkSplitFilePath`),
  * `src/vtsd/src/vtsd/delivery/cache.cpp` (`DeliveryCache::get`,
    `DeliveryCache::cleanup`, `DeliveryCache::flush`).

Structures that live in headers not shipped with the sources (Record and its
bookkeeping from cache.hpp, Sink::FileInfo from sink.hpp, the Resources pair
from the storage library) are modelled from the specification text; each such
definition says so in its doc comment.
-/

set_option linter.unusedVariables false

/- ------------------------------------------------------------------ -/
/- File classes and cache-control resolution (fileclass.hpp, sink.cpp) -/
/- ------------------------------------------------------------------ -/

/-- Source: `enum class FileClass { config, support, registry, data, unknown }`
(fileclass.hpp line 40). -/
inductive FileClass where
  | config
  | support
  | registry
  | data
  | unknown
deriving DecidableEq, Repr

/-- Source: `static_cast<int>(fc)`: the enum has no holes, values are direct array
indices (fileclass.hpp comment, lines 37-39). -/
def FileClass.idx : FileClass → Nat
  | .config => 0
  | .support => 1
  | .registry => 2
  | .data => 3
  | .unknown => 4

/-- Source: `class FileClassSettings`: a dense `std::array<long, 5>` of max-age values
indexed by FileClass (fileclass.hpp lines 42-59). -/
structure FileClassSettings where
  maxAges : List Int
deriving DecidableEq, Repr

/-- Source: `FileClassSettings::getMaxAge` (fileclass.hpp lines 76-79):
`return maxAges_[static_cast<int>(fc)];` -/
def FileClassSettings.getMaxAge (s : FileClassSettings) (fc : FileClass) : Int :=
  s.maxAges.getD fc.idx 0

/-- Source: `FileClassSettings::setMaxAge` (fileclass.hpp lines 71-74). -/
def FileClassSettings.setMaxAge (s : FileClassSettings) (fc : FileClass)
    (v : Int) : FileClassSettings :=
  ⟨s.maxAges.set fc.idx v⟩

/-- The constructor `FileClassSettings() : maxAges_{{0}}` zero-initializes all
entries and then runs `setMaxAge(FileClass::unknown, -1)` (fileclass.hpp
lines 44-47). -/
def FileClassSettings.default : FileClassSettings :=
  FileClassSettings.setMaxAge ⟨[0, 0, 0, 0, 0]⟩ FileClass.unknown (-1)

namespace Sink

/-- Modelled from the spec: `Sink.FileInfo` (sink.hpp is not among the shipped
sources) — "{contentType: string, lastModified: timestamp, fileClass:
FileClass, maxAge: optional seconds}" (§3). -/
structure FileInfo where
  contentType : String
  lastModified : Int
  fileClass : FileClass
  maxAge : Option Int
deriving DecidableEq, Repr

/-- The anonymous-namespace helper `update` of sink.cpp (lines 48-65).
`fileClassSettings` is a possibly-null pointer, modelled as `Option`.
`if (inStat.maxAge) return inStat;` is the boost::optional truthiness test. -/
def update (inStat : FileInfo) (fileClassSettings : Option FileClassSettings) :
    FileInfo :=
  if inStat.maxAge.isSome then inStat
  else
    match fileClassSettings with
    | none => { inStat with maxAge := some (-1) }
    | some t => { inStat with maxAge := some (t.getMaxAge inStat.fileClass) }

end Sink

/-- C8: cache-control resolution returns the input unchanged when maxAge is
already set; forces maxAge to -1 when unset and no file-class settings are
attached; and fills maxAge from the settings table's entry for the file class
when unset and settings are attached (so a policy mapping `data` to 30 makes a
data-classified FileInfo resolve to maxAge 30). -/
theorem c8_update_resolution (s : Sink.FileInfo)
    (t : Option FileClassSettings) :
    (s.maxAge.isSome → Sink.update s t = s)
    ∧ (s.maxAge = none → Sink.update s none = { s with maxAge := some (-1) })
    ∧ (s.maxAge = none → ∀ tbl, Sink.update s (some tbl)
        = { s with maxAge := some (tbl.getMaxAge s.fileClass) })
    ∧ (s.maxAge = none → s.fileClass = FileClass.data →
        (Sink.update s (some (FileClassSettings.setMaxAge
          FileClassSettings.default FileClass.data 30))).maxAge = some 30) := by
  refine ⟨?_, ?_, ?_, ?_⟩
  · intro h
    simp [Sink.update, h]
  · intro h
    simp [Sink.update, h]
  · intro h tbl
    simp [Sink.update, h]
  · intro h hfc
    simp [Sink.update, h, hfc, FileClassSettings.setMaxAge,
      FileClassSettings.default, FileClassSettings.getMaxAge, FileClass.idx]

/-- C8 witness: the theorem applied to a concrete data-classified FileInfo with
no maxAge and the policy mapping data to 30. -/
theorem c8_update_resolution_witness :
    (Sink.update
      ⟨"application/octet-stream", 0, FileClass.data, none⟩
      (some (FileClassSettings.setMaxAge FileClassSettings.default
        FileClass.data 30))).maxAge = some 30 :=
  (c8_update_resolution
    ⟨"application/octet-stream", 0, FileClass.data, none⟩
    (some (FileClassSettings.setMaxAge FileClassSettings.default
      FileClass.data 30))).2.2.2 rfl rfl

/-- C10: cache-control resolution is idempotent: a single application always
leaves maxAge set, and `update` returns any input with maxAge set unchanged. -/
theorem c10_update_idempotent (s : Sink.FileInfo)
    (t : Option FileClassSettings) :
    Sink.update (Sink.update s t) t = Sink.update s t := by
  by_cases h : s.maxAge.isSome
  · simp [Sink.update, h]
  · cases t with
    | none => simp [Sink.update, h]
    | some tbl => simp [Sink.update, h]

/- ------------------------------------------------------------------ -/
/- Byte-range delivery adapter: SubIStreamDataSource (sink.cpp)        -/
/- ------------------------------------------------------------------ -/

/-- Source: `std::size_t` wraps modulo 2^64 on the target platform. -/
def sizeTMod : Nat := 2 ^ 64

/-- Conversion of a `std::size_t` value to C `long` (64-bit, two's
complement), as performed by `virtual long size() const` (sink.cpp 146). -/
def toLong (n : Nat) : Int :=
  if n % sizeTMod < 2 ^ 63 then ((n % sizeTMod : Nat) : Int)
  else ((n % sizeTMod : Nat) : Int) - (sizeTMod : Int)

/-- State of a `SubIStreamDataSource` after construction (sink.cpp 105-129):
`offset_`, `end_` and the updated `stat_.size`, all `std::size_t`. -/
structure SubIStreamDataSource where
  offset_ : Nat
  end_ : Nat
  statSize : Nat
deriving DecidableEq, Repr

/-- Constructor body of `SubIStreamDataSource` (sink.cpp 107-129) over a
backing stream whose `stat().size` is `streamSize`:
`end_(offset + size)`; `if (end_ > stat_.size) end_ = stat_.size;`
`stat_.size = (end_ - offset_);`.  All arithmetic is `std::size_t`
(wrapping modulo 2^64); arguments are `std::size_t` values. -/
def mkSubSource (streamSize offset size : Nat) : SubIStreamDataSource :=
  let e0 := (offset + size) % sizeTMod
  let e1 := if streamSize < e0 then streamSize else e0
  { offset_ := offset % sizeTMod
    end_ := e1
    statSize := (e1 + (sizeTMod - offset % sizeTMod)) % sizeTMod }

/-- Source: `virtual long size() const { return stat_.size; }` (sink.cpp 146). -/
def SubIStreamDataSource.size (s : SubIStreamDataSource) : Int :=
  toLong s.statSize

/-- Source: `SubIStreamDataSource::read` (sink.cpp 133-140): translate the
caller-relative offset, return 0 past the window, clip the length to what is
left in the window.  The returned value models the number of bytes the adapter
requests from (and, the absolute range lying inside the backing stream,
receives back from) `stream_->read`. -/
def SubIStreamDataSource.read (s : SubIStreamDataSource)
    (size off : Nat) : Nat :=
  let offset := (off + s.offset_) % sizeTMod
  if s.end_ < offset then 0
  else
    let left := s.end_ - offset
    if left < size then left else size

/-- The window length the specification describes: the length of
`[offset, offset + size)` clipped so its end does not exceed the stream's
actual size. -/
def specWindowLen (streamSize offset size : Nat) : Nat :=
  min (offset + size) streamSize - offset

/-- C7 counterexample: constructed with offset=600, size=10 over a stream of
size 500, the adapter's reported size() is the wrapped size_t difference
500 - 600 (read back as the long -100), not the clipped window's length
(which is 0): the claim's universal size() description fails once the
offset lies past the end of the backing stream. -/
theorem c7_counterexample :
    (mkSubSource 500 600 10).size ≠ ((specWindowLen 500 600 10 : Nat) : Int)
    ∧ (mkSubSource 500 600 10).size = -100 := by
  constructor
  · decide
  · decide

/-- C7 amended: for every adapter whose offset does not exceed the backing
stream's size S (with S below 2^63 so that the size_t window length survives
the conversion to long, and offset+size below 2^64 so that `end_` does not
wrap), the reported size() equals the clipped window's length, and every
read at caller-relative offset o translates to the absolute size_t offset
(offset + o) mod 2^64 (the addition may wrap), clips the requested length to
what remains before the window's end at that absolute offset, and returns
zero bytes when that absolute offset lies past the window's end. -/
theorem c7_amended_clipping (S offset size : Nat)
    (hoffS : offset ≤ S) (hS : S < 2 ^ 63) (hov : offset + size < 2 ^ 64) :
    (mkSubSource S offset size).size = ((specWindowLen S offset size : Nat) : Int)
    ∧ (∀ sz o,
        (mkSubSource S offset size).read sz o
          = if min (offset + size) S < (offset + o) % 2 ^ 64 then 0
            else min sz (min (offset + size) S - (offset + o) % 2 ^ 64)) := by
  have hW : (0:Nat) < sizeTMod := by decide
  have hSW : S < sizeTMod := lt_trans hS (by decide)
  have hoffW : offset < sizeTMod := lt_of_le_of_lt hoffS hSW
  have hovW : offset + size < sizeTMod := hov
  have he0 : (offset + size) % sizeTMod = offset + size := Nat.mod_eq_of_lt hovW
  have hoffm : offset % sizeTMod = offset := Nat.mod_eq_of_lt hoffW
  -- the clamped end of the window
  have hend : (if S < (offset + size) % sizeTMod then S
      else (offset + size) % sizeTMod) = min (offset + size) S := by
    rw [he0]
    rcases lt_or_ge S (offset + size) with h | h
    · rw [if_pos h, min_eq_right (le_of_lt h)]
    · rw [if_neg (not_lt.mpr h), min_eq_left h]
  have hendle : min (offset + size) S ≤ S := min_le_right _ _
  have hoffend : offset ≤ min (offset + size) S :=
    le_min (Nat.le_add_right _ _) hoffS
  constructor
  · -- size() = clipped window length
    show toLong ((mkSubSource S offset size).statSize)
        = ((specWindowLen S offset size : Nat) : Int)
    have hstat : (mkSubSource S offset size).statSize
        = min (offset + size) S - offset := by
      show ((if S < (offset + size) % sizeTMod then S
          else (offset + size) % sizeTMod)
          + (sizeTMod - offset % sizeTMod)) % sizeTMod
          = min (offset + size) S - offset
      rw [hend, hoffm]
      have h1 : min (offset + size) S + (sizeTMod - offset)
          = (min (offset + size) S - offset) + sizeTMod := by omega
      rw [h1, Nat.add_mod_right, Nat.mod_eq_of_lt (by omega)]
    rw [hstat]
    unfold toLong specWindowLen
    have hlt : min (offset + size) S - offset < 2 ^ 63 := by omega
    rw [Nat.mod_eq_of_lt (by omega : min (offset + size) S - offset < sizeTMod),
      if_pos hlt]
  · -- read translation / clipping / past-end, at the wrapped absolute offset
    intro sz o
    show (if (mkSubSource S offset size).end_
          < (o + (mkSubSource S offset size).offset_) % sizeTMod then 0
        else if (mkSubSource S offset size).end_
            - (o + (mkSubSource S offset size).offset_) % sizeTMod < sz
          then (mkSubSource S offset size).end_
            - (o + (mkSubSource S offset size).offset_) % sizeTMod
          else sz)
        = if min (offset + size) S < (offset + o) % 2 ^ 64 then 0
          else min sz (min (offset + size) S - (offset + o) % 2 ^ 64)
    have hoffs : (mkSubSource S offset size).offset_ = offset := by
      show offset % sizeTMod = offset
      exact hoffm
    have hends : (mkSubSource S offset size).end_ = min (offset + size) S := by
      show (if S < (offset + size) % sizeTMod then S
          else (offset + size) % sizeTMod) = min (offset + size) S
      exact hend
    rw [hoffs, hends]
    have hcomm : (o + offset) % sizeTMod = (offset + o) % 2 ^ 64 := by
      rw [Nat.add_comm o offset]
      rfl
    rw [hcomm]
    rcases lt_or_ge (min (offset + size) S) ((offset + o) % 2 ^ 64) with h | h
    · rw [if_pos h, if_pos h]
    · rw [if_neg (not_lt.mpr h), if_neg (not_lt.mpr h)]
      rcases lt_or_ge (min (offset + size) S - (offset + o) % 2 ^ 64) sz
        with h2 | h2
      · rw [if_pos h2]
        omega
      · rw [if_neg (not_lt.mpr h2)]
        omega

/-- C7 amended witness: the theorem at the spec's own example — offset=100,
size=1000 over a stream of size 500: size() = 400, a read of 10 bytes at
local offset 450 (absolute 550, past the clipped window end 500) returns
zero bytes, and a read of 10 bytes at the wrapping local offset 2^64 - 50
(absolute size_t offset 50, inside the window) returns 10 bytes. -/
theorem c7_amended_clipping_witness :
    (mkSubSource 500 100 1000).size = 400
    ∧ (mkSubSource 500 100 1000).read 10 450 = 0
    ∧ (mkSubSource 500 100 1000).read 10 (2 ^ 64 - 50) = 10 := by
  have h := c7_amended_clipping 500 100 1000 (by decide) (by decide) (by decide)
  refine ⟨?_, ?_, ?_⟩
  · rw [h.1]
    decide
  · rw [h.2 10 450]
    decide
  · rw [h.2 10 (2 ^ 64 - 50)]
    decide

/- ------------------------------------------------------------------ -/
/- SLPK delivery driver (slpk/driver.cpp)                              -/
/- ------------------------------------------------------------------ -/

/-- Case-insensitive character comparison, as performed by
`boost::algorithm::ifind_first` (classic locale). -/
def lowEq (a b : Char) : Bool := a.toLower == b.toLower

/-- Does the list start, case-insensitively, with the pattern (first
argument)? -/
def ciStarts : List Char → List Char → Bool
  | [], _ => true
  | _ :: _, [] => false
  | a :: as, b :: bs => lowEq a b && ciStarts as bs

/-- Scan for the first case-insensitive occurrence of `e`, reporting its
start index (offset by `i`). -/
def ciFindAux (e : List Char) : List Char → Nat → Option Nat
  | [], i => if ciStarts e [] then some i else none
  | c :: t, i => if ciStarts e (c :: t) then some i else ciFindAux e t (i + 1)

/-- Source: `boost::algorithm::ifind_first(path, ext)`: index of the first
case-insensitive occurrence of `ext` in `hay`, if any. -/
def ciFind (hay pat : List Char) : Option Nat := ciFindAux pat hay 0

/-- Index of the last `/` in the list, if any (helper for the
boost::filesystem decompositions below). -/
def lastSlashAux : List Char → Nat → Option Nat → Option Nat
  | [], _, acc => acc
  | c :: t, i, acc => lastSlashAux t (i + 1) (if c == '/' then some i else acc)

def lastSlash (p : List Char) : Option Nat := lastSlashAux p 0 none

/-- Source: `boost::filesystem::path::parent_path()` (external library), for the
generic path shapes reaching `slpkSplitFilePath`: everything before the last
separator; `/x` has parent `/`; a relative single component has an empty
parent. -/
def parentPath (p : List Char) : List Char :=
  match lastSlash p with
  | none => []
  | some 0 => ['/']
  | some k => p.take k

/-- Source: `boost::filesystem::path::filename()` (external library): the component
after the last separator; `.` for a path ending in a separator; the whole
path when it has no separator. -/
def fileName (p : List Char) : List Char :=
  if p = ['/'] then ['/']
  else
    match lastSlash p with
    | none => p
    | some k =>
      let r := p.drop (k + 1)
      if r = [] then ['.'] else r

/-- Source: `std::array<std::string, 2> extensions{{ ".slpk", ".spk" }}`
(slpk/driver.cpp line 145). -/
def slpkExtensions : List (List Char) := [".slpk".data, ".spk".data]

/-- One iteration of the extension loop of `slpkSplitFilePath`
(slpk/driver.cpp lines 157-174): find the extension case-insensitively;
`erange` is the end of the match; `eerange` additionally skips one following
`/`; if `eerange` is the end of the whole path return
(parent_path, filename), otherwise return
(`[begin, erange)`, `[eerange, end)`). -/
def splitAtExt (p e : List Char) : Option (List Char × List Char) :=
  match ciFind p e with
  | none => none
  | some i =>
    let er := i + e.length
    let eer := if er < p.length && p.getD er ' ' == '/' then er + 1 else er
    if eer = p.length then some (parentPath p, fileName p)
    else some (p.take er, p.drop eer)

def slpkSplitList (p : List Char) : List (List Char) → Option (List Char × List Char)
  | [] => none
  | e :: es =>
    match splitAtExt p e with
    | some r => some r
    | none => slpkSplitList p es

/-- Source: `slpkSplitFilePath` (slpk/driver.cpp lines 151-177): try `.slpk` then
`.spk`; the first extension with a case-insensitive occurrence decides the
split; `false`/`none` when neither occurs. -/
def slpkSplitFilePath (path : String) : Option (String × String) :=
  match slpkSplitList path.data slpkExtensions with
  | none => none
  | some (a, b) => some (String.mk a, String.mk b)

/-- C2 counterexample: with a component following the archive name, the
returned prefix stops at the end of the matched extension and does NOT
include the following separator: the claim's predicted prefix
"/data/city.slpk/" is not what the code returns. -/
theorem c2_counterexample :
    slpkSplitFilePath "/data/city.slpk/nodes/3/3dNodeIndexDocument.json"
      ≠ some ("/data/city.slpk/", "nodes/3/3dNodeIndexDocument.json") := by
  decide

/-- The head of the extension loop of `slpkSplitFilePath`: the first of
`.slpk`, `.spk` (checked in that order) that has a case-insensitive
occurrence in the path, together with the index of its first occurrence. -/
def firstExtHit (p : List Char) : Option (List Char × Nat) :=
  match ciFind p ".slpk".data with
  | some i => some (".slpk".data, i)
  | none =>
    match ciFind p ".spk".data with
    | some i => some (".spk".data, i)
    | none => none

theorem ciStarts_le (e : List Char) :
    ∀ p : List Char, ciStarts e p = true → e.length ≤ p.length := by
  induction e with
  | nil =>
    intro p _
    simp
  | cons a as ih =>
    intro p h
    cases p with
    | nil => exact absurd h (by simp [ciStarts])
    | cons b bs =>
      simp only [ciStarts, Bool.and_eq_true] at h
      have h3 := ih bs h.2
      simp only [List.length_cons]
      omega

theorem ciFindAux_le (e : List Char) :
    ∀ (p : List Char) (i j : Nat), ciFindAux e p i = some j →
      i ≤ j ∧ j - i + e.length ≤ p.length := by
  intro p
  induction p with
  | nil =>
    intro i j h
    simp only [ciFindAux] at h
    by_cases hs : ciStarts e [] = true
    · rw [if_pos hs] at h
      injection h with h2
      subst h2
      have h3 : e.length ≤ 0 := by simpa using ciStarts_le e [] hs
      constructor
      · exact Nat.le_refl i
      · simp only [List.length_nil]
        omega
    · rw [if_neg hs] at h
      exact absurd h (by simp)
  | cons c t ih =>
    intro i j h
    simp only [ciFindAux] at h
    by_cases hs : ciStarts e (c :: t) = true
    · rw [if_pos hs] at h
      injection h with h2
      subst h2
      have h3 := ciStarts_le e (c :: t) hs
      simp only [List.length_cons] at h3 ⊢
      constructor
      · exact Nat.le_refl i
      · omega
    · rw [if_neg hs] at h
      obtain ⟨h2a, h2b⟩ := ih (i + 1) j h
      simp only [List.length_cons]
      constructor
      · omega
      · omega

theorem ciFind_le (p e : List Char) (i : Nat) (h : ciFind p e = some i) :
    i + e.length ≤ p.length := by
  obtain ⟨h1, h2⟩ := ciFindAux_le e p 0 i h
  omega

theorem splitAtExt_none (p e : List Char) (h : ciFind p e = none) :
    splitAtExt p e = none := by
  unfold splitAtExt
  rw [h]

theorem splitAtExt_isSome (p e : List Char) (i : Nat)
    (h : ciFind p e = some i) : ∃ r, splitAtExt p e = some r := by
  unfold splitAtExt
  rw [h]
  dsimp only
  split
  · split
    · exact ⟨_, rfl⟩
    · exact ⟨_, rfl⟩
  · split
    · exact ⟨_, rfl⟩
    · exact ⟨_, rfl⟩

/-- The splitting behaviour at a found occurrence, in the spec's case split:
nothing after the match, only a separator after it, a separator with more
text, or no separator (split exactly at the end of the match). -/
theorem splitAtExt_cases (p e : List Char) (i : Nat)
    (h : ciFind p e = some i) :
    (i + e.length = p.length →
        splitAtExt p e = some (parentPath p, fileName p))
    ∧ (p.getD (i + e.length) ' ' = '/' → i + e.length + 1 = p.length →
        splitAtExt p e = some (parentPath p, fileName p))
    ∧ (p.getD (i + e.length) ' ' = '/' → i + e.length + 1 < p.length →
        splitAtExt p e
          = some (p.take (i + e.length), p.drop (i + e.length + 1)))
    ∧ (i + e.length < p.length → p.getD (i + e.length) ' ' ≠ '/' →
        splitAtExt p e
          = some (p.take (i + e.length), p.drop (i + e.length))) := by
  refine ⟨?_, ?_, ?_, ?_⟩
  · intro h1
    have h2 : ¬ (i + e.length < p.length) := by omega
    simp only [splitAtExt, h]
    split_ifs with hA hB <;> simp_all
  · intro h1 h2
    have h3 : i + e.length < p.length := by omega
    simp only [splitAtExt, h]
    split_ifs with hA hB <;> simp_all
  · intro h1 h2
    have h3 : i + e.length < p.length := by omega
    have h4 : ¬ (i + e.length + 1 = p.length) := by omega
    simp only [splitAtExt, h]
    split_ifs with hA hB <;> simp_all
  · intro h1 h2
    have h3 : ¬ (i + e.length = p.length) := by omega
    simp only [splitAtExt, h]
    split_ifs with hA hB <;> simp_all

theorem slpkSplit_eq_first (p : List Char) (e : List Char) (i : Nat)
    (h : firstExtHit p = some (e, i)) :
    slpkSplitList p slpkExtensions = splitAtExt p e
    ∧ ciFind p e = some i := by
  cases h1 : ciFind p ".slpk".data with
  | some k =>
    simp only [firstExtHit, h1] at h
    injection h with h2
    injection h2 with he hi
    subst he
    subst hi
    obtain ⟨r, hr⟩ := splitAtExt_isSome p ".slpk".data k h1
    constructor
    · show (match splitAtExt p ".slpk".data with
        | some r => some r
        | none => slpkSplitList p [".spk".data]) = splitAtExt p ".slpk".data
      rw [hr]
    · exact h1
  | none =>
    simp only [firstExtHit, h1] at h
    cases h2 : ciFind p ".spk".data with
    | some k =>
      rw [h2] at h
      injection h with h3
      injection h3 with he hi
      subst he
      subst hi
      obtain ⟨r, hr⟩ := splitAtExt_isSome p ".spk".data k h2
      constructor
      · show (match splitAtExt p ".slpk".data with
          | some r => some r
          | none => slpkSplitList p [".spk".data]) = splitAtExt p ".spk".data
        rw [splitAtExt_none p ".slpk".data h1]
        show (match splitAtExt p ".spk".data with
          | some r => some r
          | none => slpkSplitList p ([] : List (List Char)))
            = splitAtExt p ".spk".data
        rw [hr]
      · exact h2
    | none =>
      rw [h2] at h
      exact absurd h (by simp)

/-- C2 amended: for every path, the split drops the separator from both
parts.  When neither `.slpk` nor `.spk` occurs case-insensitively, the split
reports not found.  When one occurs (the first of the two, in that order,
at its first occurrence), the split succeeds, and: with nothing after the
match, or only a path separator after it, the result is (parent-directory,
file-name); with a separator followed by more text, the prefix is the
portion up to the end of the match (the separator is included in neither
part) and the remainder starts just after the separator; with no separator
following, the split point is exactly at the end of the match.  The spec's
examples follow, with the corrected prefix "/data/city.slpk" and an
upper-case occurrence. -/
theorem c2_amended_split :
    (∀ p : String,
      (ciFind p.data ".slpk".data = none → ciFind p.data ".spk".data = none →
          slpkSplitFilePath p = none)
      ∧ (∀ e i, firstExtHit p.data = some (e, i) →
          (slpkSplitFilePath p).isSome = true
          ∧ (i + e.length = p.data.length →
              slpkSplitFilePath p
                = some (String.mk (parentPath p.data),
                    String.mk (fileName p.data)))
          ∧ (p.data.getD (i + e.length) ' ' = '/' →
              i + e.length + 1 = p.data.length →
              slpkSplitFilePath p
                = some (String.mk (parentPath p.data),
                    String.mk (fileName p.data)))
          ∧ (p.data.getD (i + e.length) ' ' = '/' →
              i + e.length + 1 < p.data.length →
              slpkSplitFilePath p
                = some (String.mk (p.data.take (i + e.length)),
                    String.mk (p.data.drop (i + e.length + 1))))
          ∧ (i + e.length < p.data.length →
              p.data.getD (i + e.length) ' ' ≠ '/' →
              slpkSplitFilePath p
                = some (String.mk (p.data.take (i + e.length)),
                    String.mk (p.data.drop (i + e.length))))))
    ∧ slpkSplitFilePath "/data/city.slpk/nodes/3/3dNodeIndexDocument.json"
        = some ("/data/city.slpk", "nodes/3/3dNodeIndexDocument.json")
    ∧ slpkSplitFilePath "/data/city.slpk" = some ("/data", "city.slpk")
    ∧ slpkSplitFilePath "/data/plain.zip" = none
    ∧ slpkSplitFilePath "/data/CITY.SLPK/x" = some ("/data/CITY.SLPK", "x") := by
  refine ⟨?_, by decide, by decide, by decide, by decide⟩
  intro p
  constructor
  · intro h1 h2
    show (match slpkSplitList p.data slpkExtensions with
      | none => none
      | some (a, b) => some (String.mk a, String.mk b)) = none
    have hs : slpkSplitList p.data slpkExtensions = none := by
      show (match splitAtExt p.data ".slpk".data with
        | some r => some r
        | none => slpkSplitList p.data [".spk".data]) = none
      rw [splitAtExt_none p.data ".slpk".data h1]
      show (match splitAtExt p.data ".spk".data with
        | some r => some r
        | none => slpkSplitList p.data ([] : List (List Char))) = none
      rw [splitAtExt_none p.data ".spk".data h2]
      rfl
    rw [hs]
  · intro e i h
    obtain ⟨hlist, hfind⟩ := slpkSplit_eq_first p.data e i h
    have hlift : ∀ x y, splitAtExt p.data e = some (x, y) →
        slpkSplitFilePath p = some (String.mk x, String.mk y) := by
      intro x y hxy
      show (match slpkSplitList p.data slpkExtensions with
        | none => none
        | some (a, b) => some (String.mk a, String.mk b)) = _
      rw [hlist, hxy]
    obtain ⟨hc1, hc2, hc3, hc4⟩ := splitAtExt_cases p.data e i hfind
    refine ⟨?_, ?_, ?_, ?_, ?_⟩
    · have hb := ciFind_le p.data e i hfind
      by_cases ha : i + e.length = p.data.length
      · rw [hlift _ _ (hc1 ha)]
        rfl
      · have ha2 : i + e.length < p.data.length := by omega
        by_cases hsep : p.data.getD (i + e.length) ' ' = '/'
        · by_cases hend2 : i + e.length + 1 = p.data.length
          · rw [hlift _ _ (hc2 hsep hend2)]
            rfl
          · have ha3 : i + e.length + 1 < p.data.length := by omega
            rw [hlift _ _ (hc3 hsep ha3)]
            rfl
        · rw [hlift _ _ (hc4 ha2 hsep)]
          rfl
    · intro ha
      exact hlift _ _ (hc1 ha)
    · intro ha hb2
      exact hlift _ _ (hc2 ha hb2)
    · intro ha hb2
      exact hlift _ _ (hc3 ha hb2)
    · intro ha hb2
      exact hlift _ _ (hc4 ha hb2)

/-- C2 amended witness: the universal statement applied to the concrete path
"/data/x.spk/y" — the first matching extension is ".spk" at index 7, a
separator follows the match with more text after it, and the split drops the
separator from both parts. -/
theorem c2_amended_split_witness :
    slpkSplitFilePath "/data/x.spk/y" = some ("/data/x.spk", "y") := by
  have h := ((c2_amended_split.1 "/data/x.spk/y").2 ".spk".data 7
    (by decide)).2.2.2.1 (by decide) (by decide)
  rw [h]
  decide

/-- The responses `SlpkDriver::handle` can deliver through the sink:
`content` is `sink.content(string, FileInfo)`, `stream` is
`sink.content(reader_.rawistream(...), contentType, fileClass)` carrying the
archive entry name it asks the reader for, `error` is
`sink.error(makeError<NotFound>(msg))`. -/
inductive SlpkResponse where
  | content (body contentType : String) (fc : FileClass)
  | stream (entry contentType : String) (fc : FileClass)
  | error (msg : String)
deriving DecidableEq, Repr

/-- Source: `boost::algorithm::starts_with(s, t)`: does `s` begin with `t`? -/
def baStartsWith (s t : String) : Bool := t.data.isPrefixOf s.data

namespace SlpkDriver

/-- Source: `SlpkDriver::handle` (slpk/driver.cpp lines 90-119), in the
scene-layer-config mode: `lp` is the stored `layerPrefix_`, `cfg` the stored
`sceneServerConfig_`.  The source computes
`localPath = path.substr(layerPrefix_.size())` and logs it, but the stream it
delivers is obtained from `reader_.rawistream(path)` — the full request
path. -/
def handle (lp cfg path : String) : SlpkResponse :=
  if path = "." then
    SlpkResponse.content cfg "application/json" FileClass.config
  else if !(baStartsWith path lp) then
    SlpkResponse.error "Unknown file."
  else
    let localPath := path.drop lp.length
    SlpkResponse.stream path "application/octet-stream" FileClass.data

end SlpkDriver

/-- C3: the code does NOT stream the archive entry named by the stripped,
archive-relative remainder: with layer prefix "layers/0/" and request path
"layers/0/nodes/3/x.json" it asks the reader for the full request path
"layers/0/nodes/3/x.json", although the stripped remainder
"nodes/3/x.json" differs from it. -/
theorem c3_streams_full_path :
    SlpkDriver.handle "layers/0/" "cfg" "layers/0/nodes/3/x.json"
      = SlpkResponse.stream "layers/0/nodes/3/x.json"
          "application/octet-stream" FileClass.data
    ∧ "layers/0/nodes/3/x.json".drop "layers/0/".length
        ≠ "layers/0/nodes/3/x.json" := by
  refine ⟨by decide, by decide⟩

/-- C6: in scene-layer-config mode, path "." always delivers the stored
configuration document as application/json with file class config, and a
path other than "." that does not start with the derived layer prefix
delivers a not-found error with the exact message "Unknown file.". -/
theorem c6_root_and_unknown (lp cfg p : String)
    (hne : p ≠ ".") (hpre : baStartsWith p lp = false) :
    SlpkDriver.handle lp cfg "." = SlpkResponse.content cfg "application/json"
        FileClass.config
    ∧ SlpkDriver.handle lp cfg p = SlpkResponse.error "Unknown file." := by
  constructor
  · simp [SlpkDriver.handle]
  · simp [SlpkDriver.handle, hne, hpre]

/-- C6 witness: the theorem at a concrete archive state (layer prefix
"layers/0/", stored config "cfg") and concrete request paths. -/
theorem c6_root_and_unknown_witness :
    SlpkDriver.handle "layers/0/" "cfg" "."
      = SlpkResponse.content "cfg" "application/json" FileClass.config
    ∧ SlpkDriver.handle "layers/0/" "cfg" "foo"
      = SlpkResponse.error "Unknown file." :=
  c6_root_and_unknown "layers/0/" "cfg" "foo" (by decide) (by decide)

/- ------------------------------------------------------------------ -/
/- Delivery cache (cache.cpp)                                          -/
/- ------------------------------------------------------------------ -/

/-- Source: `constexpr std::time_t FLUSH_INTERVAL(60)` (cache.cpp line 39). -/
def FLUSH_INTERVAL : Int := 60

/-- Source: `constexpr std::time_t MAX_INTERVAL_BETWEEN_HITS(600)` (cache.cpp
line 43). -/
def MAX_INTERVAL_BETWEEN_HITS : Int := 600

/-- Modelled from the spec: the `Resources` pair of the storage library —
"{openFiles: integer, memory: integer}; summable" (§3). -/
structure Resources where
  openFiles : Nat
  memory : Nat
deriving DecidableEq, Repr

/-- Modelled from the spec: the Resources comparison used by
`totalResources_ < cleanupLimit_` — a cache is over limit "when either
openFiles or memory exceeds its limit" (§3/§4.3), i.e. `a < b` holds when
both components are strictly below the limit. -/
def resLt (a b : Resources) : Prop :=
  a.openFiles < b.openFiles ∧ a.memory < b.memory

instance (a b : Resources) : Decidable (resLt a b) :=
  inferInstanceAs (Decidable (_ ∧ _))

def resAdd (a b : Resources) : Resources :=
  ⟨a.openFiles + b.openFiles, a.memory + b.memory⟩

def resSub (a b : Resources) : Resources :=
  ⟨a.openFiles - b.openFiles, a.memory - b.memory⟩

/-- Outcome of one call to a driver's `externallyChanged()` probe: a returned
Bool, a thrown `std::exception`, or a thrown value of any other type (the
two catch arms of cache.cpp lines 152-161). -/
inductive ProbeResult where
  | ok (changed : Bool)
  | errKnown
  | errUnknown
deriving DecidableEq, Repr

/-- A cached `DriverWrapper`: `id` models instance identity (which concrete
heap object the shared pointer designates), `hot` is `hotContent()`, `probe`
the behaviour of `externallyChanged()`, `resources` the `resources()` cost
snapshot (§4.4 driver contract). -/
structure Driver where
  id : Nat
  hot : Bool
  probe : ProbeResult
  resources : Resources
deriving DecidableEq, Repr

/-- Modelled from the spec: `Record` of cache.hpp — "{path: string, driver:
DriverWrapper (shared), lastHit: timestamp, resources: Resources}", keyed by
`(path, reserved-tag)` with the tag presently always 0 (§3). -/
structure Record where
  path : String
  tag : Nat
  driver : Driver
  lastHit : Int
  resources : Resources
deriving DecidableEq, Repr

/-- Modelled from the spec: the mutable state of a `DeliveryCache` — the
record set, the running `totalResources_`, the `cleanupLimit_` computed at
construction and the `nextFlush_` timestamp (§4.3). -/
structure CacheState where
  records : List Record
  totalResources : Resources
  cleanupLimit : Resources
  nextFlush : Int
deriving DecidableEq, Repr

def sumResources (l : List Record) : Resources :=
  l.foldl (fun a r => resAdd a r.resources) ⟨0, 0⟩

/-- The key predicate of `drivers_.find(boost::make_tuple(path, 0))`
(cache.cpp line 81). -/
def keyMatch (path : String) (x : Record) : Bool :=
  x.path == path && x.tag == 0

def lookupRecord (st : CacheState) (path : String) : Option Record :=
  st.records.find? (keyMatch path)

/-- Modify the (first) record matching the predicate in place, as
`drivers_.modify(fdrivers, ...)` / `fdrivers->driver = driver` do through the
found iterator. -/
def modifyFirst (p : Record → Bool) (f : Record → Record) :
    List Record → List Record
  | [] => []
  | x :: xs => if p x then f x :: xs else x :: modifyFirst p f xs

/-- Source: `drivers_.modify(fdrivers, [](Record &r) { r.update(); })` (cache.cpp
line 92); modelled from the spec, `Record::update()` "refreshes lastHit to
now on every cache hit" (§3). -/
def touchRecords (st1 : CacheState) (path : String) (now : Int) : CacheState :=
  { st1 with records := modifyFirst (keyMatch path) (fun x => { x with lastHit := now }) st1.records }

/-- Source: `fdrivers->driver = driver` (cache.cpp line 102): the new driver is
swapped into the existing record; nothing else of the record changes. -/
def replaceDriver (st1 : CacheState) (path : String) (d : Driver) : CacheState :=
  { st1 with records := modifyFirst (keyMatch path) (fun x => { x with driver := d }) st1.records }

/-- Source: `drivers_.insert(Record(path, driver, totalResources_))` (cache.cpp
line 105); modelled from the spec, the Record constructor sets
`lastHit = now`, takes `resources = driver.resources()` and adds them to the
running total (§4.3 step 5). -/
def insertRecord (st1 : CacheState) (path : String) (d : Driver) (now : Int) :
    CacheState :=
  { st1 with
    records := st1.records ++ [⟨path, 0, d, now, d.resources⟩]
    totalResources := resAdd st1.totalResources d.resources }

/-- Smallest record of the resource-ordered index (`drivers_.get<ResourcesIdx>()`,
iterated from `idx.begin()`), together with the remaining records. -/
def removeSmallest : List Record → Option (Record × List Record)
  | [] => none
  | x :: xs =>
    match removeSmallest xs with
    | none => some (x, [])
    | some (m, rest) =>
      if x.resources.openFiles < m.resources.openFiles
          || (x.resources.openFiles == m.resources.openFiles
              && x.resources.memory ≤ m.resources.memory) then
        some (x, xs)
      else some (m, x :: rest)

/-- The eviction loop of `DeliveryCache::cleanup` (cache.cpp lines 128-135):
`for (auto iidx(idx.begin()); (totalResources_ < cleanupLimit_) && (iidx != idx.end()); )`
erasing the record at the low end of the resource-ordered index.  The
erased record's resources leave the running total (Record bookkeeping,
modelled from the spec).  Fuel bounds the iteration count by the record
count. -/
def cleanupLoop : Nat → CacheState → CacheState
  | 0, st => st
  | fuel + 1, st =>
    if resLt st.totalResources st.cleanupLimit then
      match removeSmallest st.records with
      | some (r, rest) =>
        cleanupLoop fuel
          { st with records := rest
                    totalResources := resSub st.totalResources r.resources }
      | none => st
    else st

/-- Source: `DeliveryCache::cleanup(std::unique_lock<std::mutex>&)` (cache.cpp lines
119-136): return immediately when under limit
(`if (totalResources_ < cleanupLimit_) { return; }`), otherwise run the
eviction loop, whose continuation condition is again
`totalResources_ < cleanupLimit_`. -/
def DeliveryCache.cleanup (st : CacheState) : CacheState :=
  if resLt st.totalResources st.cleanupLimit then st
  else cleanupLoop st.records.length st

/-- The body of the try/catch around `r.driver->externallyChanged()`
(cache.cpp lines 150-161): a thrown error of either shape yields
`remove = true`. -/
def probeChanged : ProbeResult → Bool
  | ProbeResult.ok b => b
  | ProbeResult.errKnown => true
  | ProbeResult.errUnknown => true

/-- Per-record removal decision of `DeliveryCache::flush` (cache.cpp lines
147-162): `bool remove(r.lastHit < killHit)` with
`killHit = now - MAX_INTERVAL_BETWEEN_HITS`; when not already stale the
external-change probe (with its catch arms) decides. -/
def flushRemove (now : Int) (r : Record) : Bool :=
  if r.lastHit < now - MAX_INTERVAL_BETWEEN_HITS then true
  else probeChanged r.driver.probe

/-- Source: `DeliveryCache::flush(std::unique_lock<std::mutex>&)` (cache.cpp lines
138-174): no-op before `nextFlush_`; otherwise erase every record whose
removal flag is set (their resources leave the running total — Record
bookkeeping, modelled from the spec) and reschedule
`nextFlush_ = now + FLUSH_INTERVAL`. -/
def DeliveryCache.flush (now : Int) (st : CacheState) : CacheState :=
  if st.nextFlush > now then st
  else
    { records := st.records.filter (fun r => !(flushRemove now r))
      totalResources := resSub st.totalResources
        (sumResources (st.records.filter (fun r => flushRemove now r)))
      cleanupLimit := st.cleanupLimit
      nextFlush := now + FLUSH_INTERVAL }

/-- The maintenance prologue of `DeliveryCache::get` (cache.cpp lines 77-78):
`cleanup(guard); flush(guard);`. -/
def maintain (now : Int) (st : CacheState) : CacheState :=
  DeliveryCache.flush now (DeliveryCache.cleanup st)

/-- Outcome of a `DeliveryCache::get` call: a returned driver together with
whether `openDriver` ran (`opened`), or a propagated exception (`exn`). -/
inductive GetResult where
  | ok (driver : Driver) (opened : Bool)
  | exn
deriving DecidableEq, Repr

/-- Source: `DeliveryCache::get` after the maintenance passes (cache.cpp lines
81-109).  `replace = driver->hotContent() && driver->externallyChanged()`
short-circuits: a cold driver's probe is not called; a hot driver whose
probe throws propagates the exception.  `op` is the outcome `openDriver`
would produce for this path (`some d`: the opened driver; `none`: every
opener rejected and the final failure propagates). -/
def getAfter (now : Int) (st1 : CacheState) (path : String) (op : Option Driver) :
    CacheState × GetResult :=
  match lookupRecord st1 path with
  | some r =>
    match r.driver.hot, r.driver.probe with
    | false, _ => (touchRecords st1 path now, GetResult.ok r.driver false)
    | true, ProbeResult.ok false =>
      (touchRecords st1 path now, GetResult.ok r.driver false)
    | true, ProbeResult.ok true =>
      match op with
      | some d => (replaceDriver st1 path d, GetResult.ok d true)
      | none => (st1, GetResult.exn)
    | true, ProbeResult.errKnown => (st1, GetResult.exn)
    | true, ProbeResult.errUnknown => (st1, GetResult.exn)
  | none =>
    match op with
    | some d => (insertRecord st1 path d now, GetResult.ok d true)
    | none => (st1, GetResult.exn)

/-- Source: `DeliveryCache::get` (cache.cpp lines 68-110): run the maintenance passes
under the lock, then look up `(path, 0)` and serve a hit, a replacement or a
fresh open.  The returned state persists even when an exception propagates
(the C++ mutates `this` in place). -/
def DeliveryCache.get (now : Int) (st : CacheState) (path : String)
    (op : Option Driver) : CacheState × GetResult :=
  getAfter now (maintain now st) path op

/- ------------------------------------------------------------------ -/
/- Cache lemmas and claims                                             -/
/- ------------------------------------------------------------------ -/

theorem cleanupLoop_of_not_lt (st : CacheState)
    (h : ¬ resLt st.totalResources st.cleanupLimit) :
    ∀ fuel, cleanupLoop fuel st = st := by
  intro fuel
  cases fuel with
  | zero => rfl
  | succ n =>
    unfold cleanupLoop
    rw [if_neg h]

/-- An over-limit state with three cached records of resource footprints
10, 20 and 30 open files (total 60) against a cleanup limit of 25 open
files. -/
def c1St : CacheState :=
  { records :=
      [⟨"t10", 0, ⟨1, false, ProbeResult.ok false, ⟨10, 0⟩⟩, 0, ⟨10, 0⟩⟩,
       ⟨"t20", 0, ⟨2, false, ProbeResult.ok false, ⟨20, 0⟩⟩, 0, ⟨20, 0⟩⟩,
       ⟨"t30", 0, ⟨3, false, ProbeResult.ok false, ⟨30, 0⟩⟩, 0, ⟨30, 0⟩⟩]
    totalResources := ⟨60, 0⟩
    cleanupLimit := ⟨25, 18446744073709551615⟩
    nextFlush := 1000000 }

/-- C1: the cleanup pass never removes anything.  The guard
`if (totalResources_ < cleanupLimit_) return;` ensures the subsequent loop is
reached only when `totalResources_ < cleanupLimit_` is false, yet the loop's
continuation condition is that very comparison, so the loop body is dead code
and `cleanup` is the identity on every state — in particular on the
over-limit, non-empty three-record state `c1St`, where the claim demands that
at least one record be removed. -/
theorem c1_cleanup_dead_loop :
    (∀ st : CacheState, DeliveryCache.cleanup st = st)
    ∧ ¬ resLt c1St.totalResources c1St.cleanupLimit
    ∧ c1St.records.length = 3
    ∧ DeliveryCache.cleanup c1St = c1St := by
  have hall : ∀ st : CacheState, DeliveryCache.cleanup st = st := by
    intro st
    unfold DeliveryCache.cleanup
    by_cases h : resLt st.totalResources st.cleanupLimit
    · rw [if_pos h]
    · rw [if_neg h, cleanupLoop_of_not_lt st h]
  exact ⟨hall, by decide, by decide, hall c1St⟩

theorem flushRemove_false_iff (now : Int) (r : Record) :
    flushRemove now r = false
      ↔ (now - r.lastHit ≤ 600 ∧ r.driver.probe = ProbeResult.ok false) := by
  unfold flushRemove MAX_INTERVAL_BETWEEN_HITS
  by_cases ht : r.lastHit < now - 600
  · rw [if_pos ht]
    constructor
    · intro h
      exact absurd h (by simp)
    · rintro ⟨h1, -⟩
      exact absurd ht (by omega)
  · rw [if_neg ht]
    constructor
    · intro h
      refine ⟨by omega, ?_⟩
      cases hp : r.driver.probe with
      | ok b =>
        cases b
        · rfl
        · rw [hp] at h
          exact absurd h (by decide)
      | errKnown =>
        rw [hp] at h
        exact absurd h (by decide)
      | errUnknown =>
        rw [hp] at h
        exact absurd h (by decide)
    · rintro ⟨-, h2⟩
      rw [h2]
      rfl

/-- C4: when a flush pass runs (the rescheduling guard has expired), a record
survives it exactly when its last hit is at most 600 seconds old AND its
external-change probe returns false; equivalently, a record is removed iff
it is stale by more than 600 seconds or its probe reports a change or raises
an error of either shape (both error shapes being `≠ ok false`, they are
handled identically, and the flush pass itself is a total function — no
probe outcome escapes it).  A record hit 599 seconds ago with a false probe
is kept. -/
theorem c4_flush_staleness (now : Int) (st : CacheState) (r : Record)
    (hdue : st.nextFlush ≤ now) (hmem : r ∈ st.records) :
    r ∈ (DeliveryCache.flush now st).records
      ↔ (now - r.lastHit ≤ 600 ∧ r.driver.probe = ProbeResult.ok false) := by
  unfold DeliveryCache.flush
  rw [if_neg (by omega : ¬ st.nextFlush > now)]
  show r ∈ st.records.filter (fun x => !(flushRemove now x)) ↔ _
  rw [List.mem_filter, ← flushRemove_false_iff]
  constructor
  · rintro ⟨-, h⟩
    simpa using h
  · intro h
    exact ⟨hmem, by simpa using h⟩

/-- Flush example: `rKeep` was hit 599 seconds before now = 1000 and probes
false; `rStale` was hit 1000 seconds before now. -/
def rKeep : Record := ⟨"k", 0, ⟨1, false, ProbeResult.ok false, ⟨1, 0⟩⟩, 401, ⟨1, 0⟩⟩

def rStale : Record := ⟨"s", 0, ⟨2, false, ProbeResult.ok false, ⟨1, 0⟩⟩, 0, ⟨1, 0⟩⟩

def c4St : CacheState :=
  { records := [rKeep, rStale]
    totalResources := ⟨2, 0⟩
    cleanupLimit := ⟨100, 100⟩
    nextFlush := 900 }

/-- C4 witness: at now = 1000 a due flush pass keeps the record hit 599
seconds ago whose probe returns false, and removes the record hit 1000
seconds ago even though its probe also returns false. -/
theorem c4_flush_staleness_witness :
    rKeep ∈ (DeliveryCache.flush 1000 c4St).records
    ∧ rStale ∉ (DeliveryCache.flush 1000 c4St).records := by
  constructor
  · exact (c4_flush_staleness 1000 c4St rKeep (by decide) (by decide)).mpr
      (by decide)
  · intro hmem
    have h := (c4_flush_staleness 1000 c4St rStale (by decide) (by decide)).mp
      hmem
    exact absurd h.1 (by decide)

theorem find_modifyFirst (p : Record → Bool) (f : Record → Record)
    (hf : ∀ x, p (f x) = p x) :
    ∀ l : List Record, (modifyFirst p f l).find? p = (l.find? p).map f := by
  intro l
  induction l with
  | nil => rfl
  | cons x xs ih =>
    by_cases hx : p x = true
    · show (if p x then f x :: xs else x :: modifyFirst p f xs).find? p = _
      rw [if_pos hx, List.find?_cons_of_pos _ (by rw [hf]; exact hx),
        List.find?_cons_of_pos _ hx]
      rfl
    · have hx' : ¬ p x := by simpa using hx
      show (if p x then f x :: xs else x :: modifyFirst p f xs).find? p = _
      rw [if_neg (by simpa using hx), List.find?_cons_of_neg _ hx',
        List.find?_cons_of_neg _ hx', ih]

theorem lookup_touch (st1 : CacheState) (path : String) (now : Int)
    (r : Record) (h : lookupRecord st1 path = some r) :
    lookupRecord (touchRecords st1 path now) path
      = some { r with lastHit := now } := by
  unfold lookupRecord at h
  show (modifyFirst (keyMatch path) (fun x => { x with lastHit := now })
      st1.records).find? (keyMatch path) = _
  rw [find_modifyFirst (keyMatch path) (fun x => { x with lastHit := now })
    (fun x => rfl), h]
  rfl

theorem lookup_replace (st1 : CacheState) (path : String) (d : Driver)
    (r : Record) (h : lookupRecord st1 path = some r) :
    lookupRecord (replaceDriver st1 path d) path
      = some { r with driver := d } := by
  unfold lookupRecord at h
  show (modifyFirst (keyMatch path) (fun x => { x with driver := d })
      st1.records).find? (keyMatch path) = _
  rw [find_modifyFirst (keyMatch path) (fun x => { x with driver := d })
    (fun x => rfl), h]
  rfl

theorem getAfter_found (now : Int) (st1 : CacheState) (path : String)
    (op : Option Driver) (r : Record) (h : lookupRecord st1 path = some r) :
    getAfter now st1 path op =
      (match r.driver.hot, r.driver.probe with
       | false, _ => (touchRecords st1 path now, GetResult.ok r.driver false)
       | true, ProbeResult.ok false =>
         (touchRecords st1 path now, GetResult.ok r.driver false)
       | true, ProbeResult.ok true =>
         (match op with
          | some d => (replaceDriver st1 path d, GetResult.ok d true)
          | none => (st1, GetResult.exn))
       | true, ProbeResult.errKnown => (st1, GetResult.exn)
       | true, ProbeResult.errUnknown => (st1, GetResult.exn)) := by
  unfold getAfter
  rw [h]

theorem getAfter_missing (now : Int) (st1 : CacheState) (path : String)
    (op : Option Driver) (h : lookupRecord st1 path = none) :
    getAfter now st1 path op =
      (match op with
       | some d => (insertRecord st1 path d now, GetResult.ok d true)
       | none => (st1, GetResult.exn)) := by
  unfold getAfter
  rw [h]

/-- C5: a `get` whose post-maintenance lookup finds a record whose probe
returns (rather than raises).  If the driver is not (hot AND externally
changed), the very same driver instance is returned with `opened = false`
(no format opener is invoked), the state change is exactly the in-place
lastHit refresh, and the record is afterwards found with `lastHit = now` and
everything else unchanged.  If the driver is hot AND changed and the open
succeeds, the new driver is swapped into the existing record in place: the
record is afterwards found under the same key with only its driver field
replaced. -/
theorem c5_cache_hit_reuse (now : Int) (st : CacheState) (path : String)
    (op : Option Driver) (r : Record) (c : Bool)
    (hfind : lookupRecord (maintain now st) path = some r)
    (hprobe : r.driver.probe = ProbeResult.ok c) :
    (¬(r.driver.hot = true ∧ c = true) →
      DeliveryCache.get now st path op
        = (touchRecords (maintain now st) path now, GetResult.ok r.driver false)
      ∧ lookupRecord (DeliveryCache.get now st path op).1 path
        = some { r with lastHit := now })
    ∧ (r.driver.hot = true → c = true → ∀ d, op = some d →
      DeliveryCache.get now st path op
        = (replaceDriver (maintain now st) path d, GetResult.ok d true)
      ∧ lookupRecord (DeliveryCache.get now st path op).1 path
        = some { r with driver := d }) := by
  constructor
  · intro hnc
    have key : DeliveryCache.get now st path op
        = (touchRecords (maintain now st) path now,
           GetResult.ok r.driver false) := by
      show getAfter now (maintain now st) path op = _
      rw [getAfter_found now (maintain now st) path op r hfind]
      cases hh : r.driver.hot with
      | false => rw [hprobe]
      | true =>
        have hcf : c = false := by
          cases c with
          | false => rfl
          | true => exact absurd ⟨hh, rfl⟩ hnc
        rw [hprobe, hcf]
    refine ⟨key, ?_⟩
    rw [key]
    exact lookup_touch (maintain now st) path now r hfind
  · intro hh hc d hop
    have key : DeliveryCache.get now st path op
        = (replaceDriver (maintain now st) path d, GetResult.ok d true) := by
      show getAfter now (maintain now st) path op = _
      rw [getAfter_found now (maintain now st) path op r hfind, hh, hprobe,
        hc, hop]
    refine ⟨key, ?_⟩
    rw [key]
    exact lookup_replace (maintain now st) path d r hfind

/-- A cold cached driver and a distinct driver the opener would produce. -/
def d5a : Driver := ⟨10, false, ProbeResult.ok false, ⟨1, 0⟩⟩

def d5b : Driver := ⟨11, false, ProbeResult.ok false, ⟨1, 0⟩⟩

def r5 : Record := ⟨"p", 0, d5a, 990, ⟨1, 0⟩⟩

def c5St : CacheState :=
  { records := [r5]
    totalResources := ⟨1, 0⟩
    cleanupLimit := ⟨100, 100⟩
    nextFlush := 2000 }

/-- A hot, externally changed cached driver under path "q". -/
def d5h : Driver := ⟨12, true, ProbeResult.ok true, ⟨1, 0⟩⟩

def r5h : Record := ⟨"q", 0, d5h, 990, ⟨1, 0⟩⟩

def c5hSt : CacheState :=
  { records := [r5h]
    totalResources := ⟨1, 0⟩
    cleanupLimit := ⟨100, 100⟩
    nextFlush := 2000 }

/-- C5 witness: at now = 1000 a hit on the cold record returns the cached
driver instance `d5a` without opening, leaving the record found with
`lastHit` refreshed; a hit on the hot, changed record swaps the newly opened
`d5b` into the record in place. -/
theorem c5_cache_hit_reuse_witness :
    (DeliveryCache.get 1000 c5St "p" (some d5b)
      = (touchRecords (maintain 1000 c5St) "p" 1000, GetResult.ok d5a false)
    ∧ lookupRecord (DeliveryCache.get 1000 c5St "p" (some d5b)).1 "p"
      = some { r5 with lastHit := 1000 })
    ∧ (DeliveryCache.get 1000 c5hSt "q" (some d5b)
      = (replaceDriver (maintain 1000 c5hSt) "q" d5b, GetResult.ok d5b true)
    ∧ lookupRecord (DeliveryCache.get 1000 c5hSt "q" (some d5b)).1 "q"
      = some { r5h with driver := d5b }) := by
  constructor
  · exact (c5_cache_hit_reuse 1000 c5St "p" (some d5b) r5 false
      (by decide) (by decide)).1 (by decide)
  · exact (c5_cache_hit_reuse 1000 c5hSt "q" (some d5b) r5h true
      (by decide) (by decide)).2 (by decide) (by decide) d5b rfl

/-- The state for C9: one cached record whose last hit is 1000 seconds before
now = 1000, with the flush pass due (`nextFlush = 50`). -/
def c9St : CacheState :=
  { records := [⟨"a", 0, ⟨3, false, ProbeResult.ok false, ⟨1, 0⟩⟩, 0, ⟨1, 0⟩⟩]
    totalResources := ⟨1, 0⟩
    cleanupLimit := ⟨100, 100⟩
    nextFlush := 50 }

/-- C9 counterexample: a `get` for the uncached path "b" whose open fails
propagates the exception, yet the record set is NOT left exactly as it was
before the call — the maintenance flush that runs at the start of `get` has
already evicted the stale record for "a". -/
theorem c9_counterexample :
    (DeliveryCache.get 1000 c9St "b" none).2 = GetResult.exn
    ∧ (DeliveryCache.get 1000 c9St "b" none).1.records ≠ c9St.records := by
  refine ⟨by decide, by decide⟩

/-- C9 amended: when the open is reached and fails (the path is not cached
after maintenance, or it is cached with a hot driver whose probe reports a
change), the exception propagates and the cache state is exactly the
post-maintenance state: no record is inserted, and a replacement target
keeps its old driver — but the maintenance passes may already have evicted
stale records before the failure. -/
theorem c9_amended_atomic_open (now : Int) (st : CacheState) (path : String) :
    (lookupRecord (maintain now st) path = none →
      DeliveryCache.get now st path none = (maintain now st, GetResult.exn))
    ∧ (∀ r, lookupRecord (maintain now st) path = some r →
        r.driver.hot = true → r.driver.probe = ProbeResult.ok true →
        DeliveryCache.get now st path none
          = (maintain now st, GetResult.exn)) := by
  constructor
  · intro h
    show getAfter now (maintain now st) path none = _
    rw [getAfter_missing now (maintain now st) path none h]
  · intro r h hh hp
    show getAfter now (maintain now st) path none = _
    rw [getAfter_found now (maintain now st) path none r h, hh, hp]

/-- C9 amended witness: the theorem at the concrete stale-record state: the
failing open for "b" leaves exactly the post-maintenance state and reports
the exception. -/
theorem c9_amended_atomic_open_witness :
    DeliveryCache.get 1000 c9St "b" none
      = (maintain 1000 c9St, GetResult.exn) :=
  (c9_amended_atomic_open 1000 c9St "b").1 (by decide)
